import Mathlib

/-!
# Verification of the `ec2metadata` metadata-discovery core

Shallow embedding of `lib/ec2metadata/__init__.py` (class `EC2Metadata`).

Python strings are modelled as Lean `String`; the handful of Python string
operations the code uses (`str.split`, `str.splitlines`, `str.rstrip`,
`int(...)`, `'%d' % ...`, `'-'.join`, `s[-1] == '/'`) are implemented from
scratch over `List Char` so that every definition reduces in the kernel.
Python dicts (which preserve insertion order, update keys in place and
append new keys at the end) are modelled as association lists.
HTTP traffic is modelled by an oracle `Request → Option String`
(`none` models `urllib.error.URLError`, i.e. the request raising).
-/

set_option autoImplicit false

deriving instance DecidableEq for Except

/-! ## Python string primitives -/

/-- The characters `str.strip()` / `str.rstrip()` remove and that `int(...)`
ignores around a literal: `' \t\n\r\x0b\x0c'`.  (Unicode whitespace, which
Python also accepts, does not occur in this code's data and is not modelled.) -/
def isPySpace (c : Char) : Bool :=
  c == ' ' || c == '\t' || c == '\n' || c == '\r' || c == '\x0b' || c == '\x0c'

/-- `list` part of Python `s.split(sep)` for a one-character separator. -/
def splitCharGo (c : Char) : List Char → List (List Char)
  | [] => [[]]
  | x :: xs =>
    if x == c then [] :: splitCharGo c xs
    else
      match splitCharGo c xs with
      | [] => [[x]]
      | g :: gs => (x :: g) :: gs

/-- Python `s.split(sep)` for a one-character separator `sep`
(e.g. `value.split('\n')`, `path.split('/')`, `line.split('=')`). -/
def pySplitChar (s : String) (c : Char) : List String :=
  (splitCharGo c s.toList).map String.mk

/-- Line-boundary characters of Python `str.splitlines`. -/
def pyIsLineBreak (c : Char) : Bool :=
  c == '\n' || c == '\r' || c == '\x0b' || c == '\x0c' || c == '\x1c' ||
  c == '\x1d' || c == '\x1e' || c == '\x85' || c == '\u2028' || c == '\u2029'

/-- Worker for `str.splitlines`: `\r\n` counts as a single boundary, and a
trailing boundary does not produce a final empty line. -/
def splitlinesGo : List Char → List Char → List (List Char)
  | [], acc => if acc.isEmpty then [] else [acc.reverse]
  | '\r' :: '\n' :: rest, acc => acc.reverse :: splitlinesGo rest []
  | x :: rest, acc =>
    if pyIsLineBreak x then acc.reverse :: splitlinesGo rest []
    else splitlinesGo rest (x :: acc)

/-- Python `s.splitlines()`. -/
def pySplitlines (s : String) : List String :=
  (splitlinesGo s.toList []).map String.mk

/-- Python `s.rstrip()` (trailing whitespace removed). -/
def pyRstrip (s : String) : String :=
  String.mk (s.toList.reverse.dropWhile isPySpace).reverse

/-- Python `item[-1] == '/'` (the call sites guarantee `item` is nonempty). -/
def lastIsSlash (s : String) : Bool :=
  match s.toList.getLast? with
  | some c => c == '/'
  | none => false

/-- Digit-run validity for Python `int(...)` literals: a decimal digit,
followed by digits, where a single `'_'` may stand between two digits.
The flag records whether the next character must be a digit. -/
def pyDigitsOK : Bool → List Char → Bool
  | mustDigit, [] => !mustDigit
  | mustDigit, c :: rest =>
    if c.isDigit then pyDigitsOK false rest
    else if c == '_' then
      if mustDigit then false else pyDigitsOK true rest
    else false

/-- Decimal value of a digit-and-underscore run (underscores skipped). -/
def pyDigitsVal (l : List Char) : Nat :=
  (l.filter (fun c => c != '_')).foldl (fun n c => n * 10 + (c.toNat - 48)) 0

/-- Python `int(s)`: surrounding whitespace stripped, optional sign, decimal
digits with optional single underscores between digits; `none` models the
`ValueError` that `int` raises on anything else. -/
def pyInt (s : String) : Option Int :=
  let cs := ((s.toList.dropWhile isPySpace).reverse.dropWhile isPySpace).reverse
  match cs with
  | [] => none
  | c :: rest =>
    let signed : Bool × List Char :=
      if c == '-' then (true, rest)
      else if c == '+' then (false, rest)
      else (false, c :: rest)
    if pyDigitsOK true signed.2 then
      let n : Int := Int.ofNat (pyDigitsVal signed.2)
      some (if signed.1 then -n else n)
    else none

/-- Decimal digits of a natural number (`fuel` bounds the recursion and is
always supplied larger than the number of digits). -/
def natDigits : Nat → Nat → List Char
  | 0, _ => []
  | fuel + 1, n =>
    if n < 10 then [Char.ofNat (48 + n)]
    else natDigits fuel (n / 10) ++ [Char.ofNat (48 + n % 10)]

/-- Python `'%d' % i` for an `int` value. -/
def intToStr (i : Int) : String :=
  match i with
  | Int.ofNat n => String.mk (natDigits (n + 1) n)
  | Int.negSucc m => String.mk ('-' :: natDigits (m + 2) (m + 1))

/-- Python `'-'.join(l)`. -/
def joinHyphen : List String → String
  | [] => ""
  | [s] => s
  | s :: rest => s ++ "-" ++ joinHyphen rest

/-- Lexicographic-by-code-point order on character lists, as Python
compares strings. -/
def strLeB : List Char → List Char → Bool
  | [], _ => true
  | _ :: _, [] => false
  | a :: as, b :: bs =>
    if a.toNat < b.toNat then true
    else if a.toNat = b.toNat then strLeB as bs
    else false

/-- Python `a <= b` on strings. -/
def pyStrLe (a b : String) : Bool := strLeB a.toList b.toList

/-- Insertion into a sorted list of strings. -/
def insertSorted (x : String) : List String → List String
  | [] => [x]
  | y :: ys => if pyStrLe x y then x :: y :: ys else y :: insertSorted x ys

/-- Python `list.sort()` on strings (ascending). -/
def sortStrings (l : List String) : List String :=
  l.foldr insertSorted []

/-! ## Python dict with insertion order -/

/-- A Python `dict` from `str` to `str`: insertion-ordered key/value pairs. -/
abbrev Dict := List (String × String)

/-- `list(d.keys())`. -/
def dictKeys (d : Dict) : List String := d.map Prod.fst

/-- `d.get(k, None)` / `d[k]` lookup. -/
def dictGet : Dict → String → Option String
  | [], _ => none
  | (k', v') :: rest, k => if k' = k then some v' else dictGet rest k

/-- `d[k] = v`: updates an existing key in place (keeping its position),
otherwise appends the new key at the end, as Python dicts do. -/
def dictSet : Dict → String → String → Dict
  | [], k, v => [(k, v)]
  | (k', v') :: rest, k, v =>
    if k' = k then (k, v) :: rest else (k', v') :: dictSet rest k v

/-- `del d[k]`. -/
def dictDel (d : Dict) (k : String) : Dict :=
  d.filter (fun p => p.1 != k)

/-! ## HTTP layer -/

/-- One `urllib.request.Request`: URL, method and headers.
`urllib` defaults to `GET`; `_set_api_header` passes `method='PUT'`. -/
structure Request where
  url : String
  method : String
  headers : List (String × String)
deriving DecidableEq

/-- An HTTP oracle: what `urllib.request.urlopen(req).read().decode()`
returns, with `none` modelling a raised `urllib.error.URLError`. -/
abbrev Http := Request → Option String

/-- Whether a request is a token acquisition (`PUT`) call. -/
def isPut (r : Request) : Bool := r.method == "PUT"

/-- The data request `_get` builds:
`'http://%s/%s/%s' % (self.addr, self.api, uri)` with the stored header. -/
def getRequest (addr api : String) (hdr : List (String × String))
    (uri : String) : Request :=
  ⟨"http://" ++ addr ++ "/" ++ api ++ "/" ++ uri, "GET", hdr⟩

/-- The token request `_set_api_header` builds:
`PUT http://%s/latest/api/token` with the ttl header. -/
def tokenRequest (addr : String) : Request :=
  ⟨"http://" ++ addr ++ "/latest/api/token", "PUT",
    [("X-aws-ec2-metadata-token-ttl-seconds", "21600")]⟩

/-- The service-root request `set_api_version` builds:
`'http://%s' % self.addr` (no trailing slash) with the stored header. -/
def rootRequest (addr : String) (hdr : List (String × String)) : Request :=
  ⟨"http://" ++ addr, "GET", hdr⟩

/-- `EC2Metadata._get(uri)`: one GET against the metadata service; a
`URLError` is swallowed and turned into `None`.  The second component is the
list of HTTP requests the call issues (always exactly this one GET). -/
def ec2RawGet (http : Http) (addr api : String) (hdr : List (String × String))
    (uri : String) : Option String × List Request :=
  let req := getRequest addr api hdr uri
  (http req, [req])

/-- `EC2Metadata._set_api_header()`: a single `PUT` to the token endpoint;
on success the stored request header is
`{'X-aws-ec2-metadata-token': token}`, on `URLError` the constructor raises
`EC2MetadataError('Unable to retrieve metadata token')`.  The second
component is the list of HTTP requests issued (exactly this one `PUT`). -/
def setApiHeader (http : Http) (addr : String) :
    Except String (List (String × String)) × List Request :=
  let req := tokenRequest addr
  (match http req with
   | some token => Except.ok [("X-aws-ec2-metadata-token", token)]
   | none => Except.error "Unable to retrieve metadata token",
   [req])

/-! ## Endpoint probing (`_set_ipaddress`) -/

/-- Outcome of one `socket.create_connection((ip_addr, 80), timeout=1)`:
success, an `OSError` such as connection refused / network unreachable, or a
timeout (`socket.timeout` / `TimeoutError`). -/
inductive ProbeOutcome where
  | ok
  | osErr
  | timeout
deriving DecidableEq

/-- Python dispatches a raised exception to the textually first matching
`except` clause.  `TimeoutError` (and `socket.timeout`, its alias since
Python 3.10 and an `OSError` subclass before that) is a subclass of
`OSError`, so the `except OSError` clause matches timeouts as well. -/
def matchesOSError : ProbeOutcome → Bool
  | .ok => false
  | .osErr => true
  | .timeout => true

/-- The inner `for i in range(3)` loop of `_set_ipaddress` for one candidate
address.  `i` is the current attempt index, the `Nat` argument the remaining
iterations, and the accumulator the current `self.addr`.  Returns the final
`self.addr` together with the number of connection attempts made.

Mirrors the source: a successful probe assigns `self.addr` and the loop
*continues*; `except OSError: break`; `except TimeoutError: time.sleep(1)`
(unreachable, because `except OSError` appears first and `TimeoutError` is
an `OSError` subclass). -/
def runCandidate (probe : String → Nat → ProbeOutcome) (ip_addr : String)
    (isV6 : Bool) : Nat → Nat → Option String → Option String × Nat
  | _, 0, addr => (addr, 0)
  | i, n + 1, addr =>
    match probe ip_addr i with
    | .ok =>
      let addr := some (if isV6 then "[" ++ ip_addr ++ "]" else ip_addr)
      let r := runCandidate probe ip_addr isV6 (i + 1) n addr
      (r.1, r.2 + 1)
    | outcome =>
      if matchesOSError outcome then (addr, 1)
      else
        -- `except TimeoutError: time.sleep(1)` — dead code, kept for fidelity
        let r := runCandidate probe ip_addr isV6 (i + 1) n addr
        (r.1, r.2 + 1)

/-- `EC2Metadata._set_ipaddress()`.  Candidates are tried in insertion
order: `fd00:ec2::254` (formatted as `[fd00:ec2::254]`) then
`169.254.169.254`; without IPv6 support the IPv4 literal is used directly.
Returns the final `self.addr` and, per candidate probed, the number of
connection attempts made on it. -/
def setIpAddress (hasIpv6 : Bool) (probe : String → Nat → ProbeOutcome) :
    Option String × List (String × Nat) :=
  if !hasIpv6 then (some "169.254.169.254", [])
  else
    let r1 := runCandidate probe "fd00:ec2::254" true 0 3 none
    let r2 := runCandidate probe "169.254.169.254" false 0 3 r1.1
    (r2.1, [("fd00:ec2::254", r1.2), ("169.254.169.254", r2.2)])

/-! ## Option discovery (`_add_meta_option`, `_expand_name`) -/

/-- `EC2Metadata._expand_name(path, endpoint='')`: with an endpoint, join
the last path segment (an empty trailing segment from a directory path is
dropped first) to the endpoint with a hyphen; without one, join the last
two segments of the path with a hyphen. -/
def expandName (path : String) (endpoint : String := "") : String :=
  let pe := pySplitChar path '/'
  -- `if not path_elements[-1]` — `split` never returns an empty list, so
  -- the default of `getLastD` is never consulted at this point
  let pe := if pe.getLastD "nonempty" = "" then pe.dropLast else pe
  if endpoint = "" then joinHyphen (pe.drop (pe.length - 2))
  else pe.getLastD "" ++ "-" ++ endpoint

/-- The mutable discovery state: `self.meta_options_api_map` and
`self.duplicate_names`. -/
structure DiscoverState where
  meta_options_api_map : Dict
  duplicate_names : List String
deriving DecidableEq

/-- Model-level failures of the recursive walk: `keyError` models the
`KeyError` that `self.meta_options_api_map[item]` raises when the stale
`options` snapshot lists `item` but the live dict no longer holds it;
`fuelOut` is a model artifact (the Python recursion is bounded only by the
tree, theorems supply enough fuel). -/
inductive DiscErr where
  | fuelOut
  | keyError
deriving DecidableEq

/-- `EC2Metadata._set_meta_options` / `_add_meta_option(path)`: fetch the
listing at `path`, and for each nonempty entry either recurse (directory),
skip (`public-keys/`), or record the leaf in the option map, expanding
names on collision.  Note that `options` is a snapshot of the dict keys
taken when the call starts, while `duplicate_names` and the dict itself are
read live. -/
def addMetaOption (http : Http) (addr api : String)
    (hdr : List (String × String)) :
    Nat → String → DiscoverState → DiscoverState × Option DiscErr
  | 0, _, st => (st, some .fuelOut)
  | fuel + 1, path, st =>
    let options := dictKeys st.meta_options_api_map
    match (ec2RawGet http addr api hdr path).1 with
    | none => (st, none)
    | some value =>
      if value = "" then (st, none)
      else
        (pySplitChar value '\n').foldl (fun acc item =>
          match acc with
          | (st, some e) => (st, some e)
          | (st, none) =>
            if item = "" then (st, none)
            else if item = "public-keys/" then (st, none)
            else if lastIsSlash item then
              addMetaOption http addr api hdr fuel (path ++ item) st
            else if item ∉ options ∧ item ∉ st.duplicate_names then
              ({ st with meta_options_api_map :=
                  dictSet st.meta_options_api_map item (path ++ item) }, none)
            else if item ∈ options then
              match dictGet st.meta_options_api_map item with
              | none => (st, some .keyError)
              | some existing_path =>
                let dups := st.duplicate_names ++ [item]
                let new_name := expandName existing_path
                let m1 := dictSet st.meta_options_api_map new_name existing_path
                let m2 := dictDel m1 item
                let option_name := expandName path item
                (⟨dictSet m2 option_name (path ++ item), dups⟩, none)
            else
              let option_name := expandName path item
              ({ st with meta_options_api_map :=
                  dictSet st.meta_options_api_map option_name (path ++ item) },
                none))
          ((st, none) : DiscoverState × Option DiscErr)

/-- `EC2Metadata._reset_meta_options_api_map()`: the two seeded entries. -/
def resetMetaOptionsApiMap : Dict :=
  [("public-keys", "meta-data/public-keys"), ("user-data", "user-data")]

/-- `EC2Metadata._set_meta_options()`: walk the fixed root categories
`self.data_categories = ['dynamic/', 'meta-data/']` in order; an exception
from the first walk propagates and skips the second. -/
def setMetaOptions (http : Http) (addr api : String)
    (hdr : List (String × String)) (fuel : Nat) (st : DiscoverState) :
    DiscoverState × Option DiscErr :=
  match addMetaOption http addr api hdr fuel "dynamic/" st with
  | (st1, some e) => (st1, some e)
  | (st1, none) => addMetaOption http addr api hdr fuel "meta-data/" st1

/-! ## The instance: construction, `get`, `get_meta_data_options`,
`set_api_version` -/

/-- The attributes of one `EC2Metadata` instance after construction. -/
structure EC2Inst where
  api : String
  addr : String
  request_header : List (String × String)
  meta_options_api_map : Dict
  duplicate_names : List String
deriving DecidableEq

/-- Construction failures: `connectivity` is
`EC2MetadataError('Could not establish connection to: IMDS')`, `tokenFail`
is `EC2MetadataError('Unable to retrieve metadata token')`, and `disc`
propagates a walk failure. -/
inductive InitErr where
  | connectivity
  | tokenFail
  | disc (e : DiscErr)
deriving DecidableEq

/-- `EC2Metadata.__init__(api='2008-02-01')`: set `duplicate_names = []`,
locate the address, acquire the token header, seed the option map and run
the discovery walk. -/
def initEC2 (hasIpv6 : Bool) (probe : String → Nat → ProbeOutcome)
    (http : Http) (fuel : Nat) (api : String := "2008-02-01") :
    Except InitErr EC2Inst :=
  match (setIpAddress hasIpv6 probe).1 with
  | none => Except.error .connectivity
  | some addr =>
    match (setApiHeader http addr).1 with
    | Except.error _ => Except.error .tokenFail
    | Except.ok hdr =>
      match setMetaOptions http addr api hdr fuel ⟨resetMetaOptionsApiMap, []⟩ with
      | (st, none) =>
        Except.ok ⟨api, addr, hdr, st.meta_options_api_map, st.duplicate_names⟩
      | (_, some e) => Except.error (.disc e)

/-- A value returned by `EC2Metadata.get`: a string, the list of public
keys, or Python `None` (when `_get` swallowed a `URLError`). -/
inductive PyValue where
  | pstr (s : String)
  | plist (l : List String)
  | pnone
deriving DecidableEq

/-- Failures of `EC2Metadata.get`: `unknownOption` is
`EC2MetadataError('Unknown metaopt: ...')`; `valueError` the `ValueError`
from `int(keyid)`; `attrError` the `AttributeError` from
`self._get(uri).rstrip()` when `_get` returned `None`. -/
inductive GetErr where
  | unknownOption
  | valueError
  | attrError
deriving DecidableEq

/-- The key-fetch URI `'meta-data/public-keys/%d/openssh-key' % int(keyid)`. -/
def keyUri (n : Int) : String :=
  "meta-data/public-keys/" ++ intToStr n ++ "/openssh-key"

/-- The ids `[line.split('=')[0] for line in data.splitlines()]`. -/
def keyidsOf (data : String) : List String :=
  (pySplitlines data).map (fun line => (pySplitChar line '=').headD "")

/-- The `for keyid in keyids` loop of `EC2Metadata.get('public-keys')`:
parse each id with `int`, fetch `meta-data/public-keys/<id>/openssh-key`
and append the right-stripped key. -/
def publicKeysLoop (http : Http) (addr api : String)
    (hdr : List (String × String)) :
    List String → List String → Except GetErr (List String)
  | [], acc => Except.ok acc
  | keyid :: rest, acc =>
    match pyInt keyid with
    | none => Except.error .valueError
    | some n =>
      match (ec2RawGet http addr api hdr (keyUri n)).1 with
      | none => Except.error .attrError
      | some key => publicKeysLoop http addr api hdr rest (acc ++ [pyRstrip key])

/-- `EC2Metadata.get(metaopt)`. -/
def ec2Get (http : Http) (inst : EC2Inst) (metaopt : String) :
    Except GetErr PyValue :=
  match dictGet inst.meta_options_api_map metaopt with
  | none => Except.error .unknownOption
  | some path =>
    -- `if not path:` also fires on an empty-string path
    if path = "" then Except.error .unknownOption
    else if metaopt = "public-keys" then
      match (ec2RawGet http inst.addr inst.api inst.request_header
              "meta-data/public-keys").1 with
      | none => Except.ok (.plist [])
      | some data =>
        if data = "" then Except.ok (.plist [])
        else
          (publicKeysLoop http inst.addr inst.api inst.request_header
            (keyidsOf data) []).map .plist
    else
      match (ec2RawGet http inst.addr inst.api inst.request_header path).1 with
      | none => Except.ok .pnone
      | some v => Except.ok (.pstr v)

/-- `EC2Metadata.get_meta_data_options()`: the sorted key list. -/
def getMetaDataOptions (inst : EC2Inst) : List String :=
  sortStrings (dictKeys inst.meta_options_api_map)

/-- Failures of `set_api_version`: `urlError` when the root fetch itself
raises (propagated unchanged), `unsupportedVersion` for
`EC2MetadataError('Requested API version ... not available')`, `disc` for a
failure inside the rebuild walk. -/
inductive SAVErr where
  | urlError
  | unsupportedVersion
  | disc (e : DiscErr)
deriving DecidableEq

/-- `EC2Metadata.set_api_version(api_version=None)`.  Returns the (possibly
mutated) instance together with the call's outcome; the success payload is
the function's return value — `self.api` on the falsy no-op path, Python's
implicit `None` after a successful switch. -/
def setApiVersion (http : Http) (fuel : Nat) (inst : EC2Inst)
    (api_version : Option String) : EC2Inst × Except SAVErr (Option String) :=
  match api_version with
  | none => (inst, Except.ok (some inst.api))
  | some v =>
    if v = "" then (inst, Except.ok (some inst.api))
    else
      match http (rootRequest inst.addr inst.request_header) with
      | none => (inst, Except.error .urlError)
      | some body =>
        let meta_apis := pySplitChar body '\n'
        if v ∉ meta_apis then (inst, Except.error .unsupportedVersion)
        else
          let inst := { inst with
                        api := v
                        meta_options_api_map := resetMetaOptionsApiMap }
          -- `self.duplicate_names` is left as-is by the source
          match setMetaOptions http inst.addr inst.api inst.request_header fuel
                ⟨inst.meta_options_api_map, inst.duplicate_names⟩ with
          | (st, none) =>
            ({ inst with
               meta_options_api_map := st.meta_options_api_map
               duplicate_names := st.duplicate_names }, Except.ok none)
          | (st, some e) =>
            ({ inst with
               meta_options_api_map := st.meta_options_api_map
               duplicate_names := st.duplicate_names }, Except.error (.disc e))

/-! ## Concrete service environments used in the theorems -/

/-- A probe oracle on which every connection attempt succeeds. -/
def okProbe : String → Nat → ProbeOutcome := fun _ _ => .ok

/-- The request header stored after acquiring token `tokA`. -/
def hdrA : List (String × String) := [("X-aws-ec2-metadata-token", "tokA")]

/-- Service with the tree `meta-data/ -> "a/\nb/"`, `meta-data/a/ -> "x"`,
`meta-data/b/ -> "x"` (two sibling leaves named `x`), which also advertises
the versions `2008-02-01` and `2016-09-02`; under `2016-09-02` the tree is
the single leaf `meta-data/x`. -/
def httpA : Http := fun req =>
  if req = tokenRequest "169.254.169.254" then some "tokA"
  else if req = getRequest "169.254.169.254" "2008-02-01" hdrA "meta-data/" then
    some "a/\nb/"
  else if req = getRequest "169.254.169.254" "2008-02-01" hdrA "meta-data/a/" then
    some "x"
  else if req = getRequest "169.254.169.254" "2008-02-01" hdrA "meta-data/b/" then
    some "x"
  else if req = rootRequest "169.254.169.254" hdrA then
    some "2008-02-01\n2016-09-02"
  else if req = getRequest "169.254.169.254" "2016-09-02" hdrA "meta-data/" then
    some "x"
  else none

/-- The instance `EC2Metadata()` builds against `httpA`. -/
def instA : EC2Inst :=
  ⟨"2008-02-01", "169.254.169.254", hdrA,
   [("public-keys", "meta-data/public-keys"), ("user-data", "user-data"),
    ("a-x", "meta-data/a/x"), ("b-x", "meta-data/b/x")],
   ["x"]⟩

/-- Service with the nested tree `meta-data/ -> "b/\nx"`,
`meta-data/b/ -> "x"`: the directory `b/` is listed before the sibling
leaf `x`, and both `meta-data/b/x` and `meta-data/x` are leaves named `x`. -/
def httpB : Http := fun req =>
  if req = tokenRequest "169.254.169.254" then some "tokA"
  else if req = getRequest "169.254.169.254" "2008-02-01" hdrA "meta-data/" then
    some "b/\nx"
  else if req = getRequest "169.254.169.254" "2008-02-01" hdrA "meta-data/b/" then
    some "x"
  else none

/-- Service with three sibling directories `a/`, `b/`, `c/`, each holding a
leaf named `x`. -/
def httpT : Http := fun req =>
  if req = tokenRequest "169.254.169.254" then some "tokA"
  else if req = getRequest "169.254.169.254" "2008-02-01" hdrA "meta-data/" then
    some "a/\nb/\nc/"
  else if req = getRequest "169.254.169.254" "2008-02-01" hdrA "meta-data/a/" then
    some "x"
  else if req = getRequest "169.254.169.254" "2008-02-01" hdrA "meta-data/b/" then
    some "x"
  else if req = getRequest "169.254.169.254" "2008-02-01" hdrA "meta-data/c/" then
    some "x"
  else none

/-- An instance holding only the two seeded option-map entries (what
construction yields when every category fetch returns no data). -/
def instSeed : EC2Inst :=
  ⟨"2008-02-01", "169.254.169.254", hdrA, resetMetaOptionsApiMap, []⟩

/-- Service that only answers the service-root listing (used for the
`set_api_version` claims). -/
def httpRootOnly : Http := fun req =>
  if req = rootRequest "169.254.169.254" hdrA then
    some "2008-02-01\n2016-09-02"
  else none

/-- Service for the public-keys scenario: listing `"0=my-key\n"` and one
key `"ssh-rsa AAAAB3 example\n"`. -/
def httpKeys : Http := fun req =>
  if req = getRequest "169.254.169.254" "2008-02-01" hdrA
      "meta-data/public-keys" then some "0=my-key\n"
  else if req = getRequest "169.254.169.254" "2008-02-01" hdrA
      "meta-data/public-keys/0/openssh-key" then some "ssh-rsa AAAAB3 example\n"
  else none

/-- Service whose public-keys listing has a non-numeric id. -/
def httpBadKeys : Http := fun req =>
  if req = getRequest "169.254.169.254" "2008-02-01" hdrA
      "meta-data/public-keys" then some "my-key\n"
  else none

/-- Service for the construction witness: only the token endpoint answers,
so discovery finds nothing and the map keeps the two seeded entries. -/
def httpW : Http := fun req =>
  if req = tokenRequest "169.254.169.254" then some "tokA" else none

/-- A header as stored at construction time (the claims about staleness
call its token the stale one). -/
def hdrStale : List (String × String) :=
  [("X-aws-ec2-metadata-token", "stale-token")]

/-- An HTTP oracle that answers every request (its value is irrelevant to
the requests a fetch issues). -/
def httpAny : Http := fun _ => some "i-123"


/-- The instance built against `httpB` (directory before same-named sibling
leaf): the deeper leaf `meta-data/b/x` is silently overwritten. -/
def instB : EC2Inst :=
  ⟨"2008-02-01", "169.254.169.254", hdrA,
   [("public-keys", "meta-data/public-keys"), ("user-data", "user-data"),
    ("x", "meta-data/x")],
   []⟩

/-- The instance built against `httpT` (three sibling directories each
holding a leaf `x`). -/
def instT : EC2Inst :=
  ⟨"2008-02-01", "169.254.169.254", hdrA,
   [("public-keys", "meta-data/public-keys"), ("user-data", "user-data"),
    ("a-x", "meta-data/a/x"), ("b-x", "meta-data/b/x"),
    ("c-x", "meta-data/c/x")],
   ["x"]⟩

/-- `d2` extends `d1` on the right (how `duplicate_names` evolves). -/
def dupsExtend (d1 d2 : List String) : Prop := ∃ t, d2 = d1 ++ t

/-- All values of the option map are nonempty strings. -/
def valuesOK (d : Dict) : Prop := ∀ p ∈ d, p.2 ≠ ""

/-- Service with leaves named `x` under both `dynamic/a/` and
`meta-data/a/`: the two preceding directory names coincide, so both
collision expansions produce the same name `a-x`. -/
def httpD : Http := fun req =>
  if req = tokenRequest "169.254.169.254" then some "tokA"
  else if req = getRequest "169.254.169.254" "2008-02-01" hdrA "dynamic/" then
    some "a/"
  else if req = getRequest "169.254.169.254" "2008-02-01" hdrA "dynamic/a/" then
    some "x"
  else if req = getRequest "169.254.169.254" "2008-02-01" hdrA "meta-data/" then
    some "a/"
  else if req = getRequest "169.254.169.254" "2008-02-01" hdrA "meta-data/a/" then
    some "x"
  else none

/-- The instance built against `httpD`: both occurrences of `x` collapse
onto the single expanded name `a-x`, and the path `dynamic/a/x` is lost. -/
def instD : EC2Inst :=
  ⟨"2008-02-01", "169.254.169.254", hdrA,
   [("public-keys", "meta-data/public-keys"), ("user-data", "user-data"),
    ("a-x", "meta-data/a/x")],
   ["x"]⟩

/-- Service answering the single-leaf listing `"x"` at `meta-data/a/`
(used to exercise the stepwise collision theorem). -/
def httpStep : Http := fun req =>
  if req = getRequest "169.254.169.254" "2008-02-01" hdrA "meta-data/a/" then
    some "x"
  else none

/-! ## Claim theorems -/

/-- Claim C1: the claim states that when both the IPv6 and the IPv4
link-local address are reachable, the endpoint stored at construction is
the bracketed IPv6 literal and probing stops at the first success.  The
code violates this: a successful probe neither breaks the inner retry loop
nor skips the remaining candidates, so with every probe succeeding each
candidate is probed three times and the final IPv4 assignment overwrites
the IPv6 one — `self.addr` ends as `169.254.169.254`, not
`[fd00:ec2::254]`.  This contradicts the source's own comment that it
complies with the RFC by trying IPv6 first. -/
theorem C1_ipv6_preference_fails :
    setIpAddress true okProbe =
      (some "169.254.169.254",
       [("fd00:ec2::254", 3), ("169.254.169.254", 3)]) := by
  decide

/-- Claim C2: the claim states that a refused probe ends a candidate after
exactly 1 attempt while a timed-out probe is retried up to 3 times.  In the
code the `except OSError` clause precedes `except TimeoutError`, and
`TimeoutError`/`socket.timeout` is a subclass of `OSError`, so a timeout is
also caught by the `break` clause: a candidate whose probes time out gets
exactly 1 attempt, the same as a refused candidate, and the sleep-and-retry
branch is dead code. -/
theorem C2_timeout_retry_fails :
    setIpAddress true (fun _ _ => ProbeOutcome.timeout) =
      (none, [("fd00:ec2::254", 1), ("169.254.169.254", 1)]) ∧
    setIpAddress true (fun _ _ => ProbeOutcome.osErr) =
      (none, [("fd00:ec2::254", 1), ("169.254.169.254", 1)]) := by
  constructor
  · decide
  · decide

/-- Claim C3, counterexample: a metadata fetch issued on an instance whose
construction-time token is arbitrarily old performs zero token-acquisition
(`PUT`) calls, not exactly one; the single request it issues is the data
`GET`, still carrying the stale construction-time token header. -/
theorem C3_counterexample :
    ((ec2RawGet httpAny "169.254.169.254" "2008-02-01" hdrStale
        "meta-data/ami-id").2.countP isPut = 0) ∧
    ¬ ((ec2RawGet httpAny "169.254.169.254" "2008-02-01" hdrStale
        "meta-data/ami-id").2.countP isPut = 1) ∧
    (ec2RawGet httpAny "169.254.169.254" "2008-02-01" hdrStale
        "meta-data/ami-id").2 =
      [getRequest "169.254.169.254" "2008-02-01" hdrStale "meta-data/ami-id"] := by
  refine ⟨by decide, by decide, by decide⟩

/-- Claim C3, amended: the token is acquired exactly once, by the single
`PUT` issued at construction; a metadata fetch never re-acquires — it
issues exactly one `GET` that reuses the stored header, whatever time has
passed (the instance stores no expiry at all). -/
theorem C3_token_acquired_once_never_refreshed (http : Http)
    (addr api uri : String) (hdr : List (String × String)) :
    (setApiHeader http addr).2 = [tokenRequest addr] ∧
    isPut (tokenRequest addr) = true ∧
    (setApiHeader http addr).2.countP isPut = 1 ∧
    (ec2RawGet http addr api hdr uri).2 = [getRequest addr api hdr uri] ∧
    (getRequest addr api hdr uri).method = "GET" ∧
    (getRequest addr api hdr uri).headers = hdr ∧
    (ec2RawGet http addr api hdr uri).2.countP isPut = 0 := by
  refine ⟨rfl, rfl, rfl, rfl, rfl, rfl, rfl⟩

/-- Claim C4, counterexample: construction against `httpA` records the
duplicate name `x`.  A subsequent successful
`set_api_version('2016-09-02')` rebuilds the option map but does *not*
empty `duplicate_names`: the new walk starts (and ends) with `['x']`, and
the single leaf `x` of the new version is therefore entered under the
expanded name instead of the bare one — whereas the very same walk started
with an empty duplicate set would record the bare `x`. -/
theorem C4_counterexample :
    initEC2 true okProbe httpA 10 "2008-02-01" = Except.ok instA ∧
    instA.duplicate_names = ["x"] ∧
    (setApiVersion httpA 10 instA (some "2016-09-02")).2 = Except.ok none ∧
    (setApiVersion httpA 10 instA (some "2016-09-02")).1.duplicate_names
      = ["x"] ∧
    "x" ∉ dictKeys
      (setApiVersion httpA 10 instA (some "2016-09-02")).1.meta_options_api_map ∧
    setMetaOptions httpA "169.254.169.254" "2016-09-02" hdrA 10
        ⟨resetMetaOptionsApiMap, []⟩ =
      (⟨resetMetaOptionsApiMap ++ [("x", "meta-data/x")], []⟩, none) := by
  refine ⟨by decide, by decide, by decide, by decide, by decide, by decide⟩

/-- Claim C5, counterexample: a valid, non-falsy `set_api_version` call
switches the active version but returns Python's implicit `None`, not the
newly active version (the success path of the source has no `return`). -/
theorem C5_counterexample :
    (setApiVersion httpRootOnly 5 instSeed (some "2016-09-02")).2
      = Except.ok none ∧
    (setApiVersion httpRootOnly 5 instSeed (some "2016-09-02")).1.api
      = "2016-09-02" ∧
    ¬ ((setApiVersion httpRootOnly 5 instSeed (some "2016-09-02")).2
      = Except.ok (some "2016-09-02")) := by
  refine ⟨by decide, by decide, by decide⟩

/-- Claim C7, counterexample: in the tree served by `httpB` the two
distinct leaf paths `meta-data/b/x` and `meta-data/x` share the leaf name
`x`, yet the discovered option map holds the single *bare* entry
`x -> meta-data/x`: the `options` snapshot of the outer call predates the
recursion into `b/`, so the later bare insertion overwrites the earlier
entry and no expansion happens — `meta-data/b/x` is unreachable. -/
theorem C7_counterexample :
    initEC2 true okProbe httpB 10 "2008-02-01" = Except.ok instB ∧
    dictGet instB.meta_options_api_map "x" = some "meta-data/x" ∧
    dictKeys instB.meta_options_api_map = ["public-keys", "user-data", "x"] ∧
    ¬ (∃ p ∈ instB.meta_options_api_map, p.2 = "meta-data/b/x") := by
  refine ⟨by decide, by decide, by decide, by decide⟩

/-! ## Helper lemmas -/

/-- A predicate preserved by every fold step holds of the fold's result. -/
theorem foldl_invariant {α β : Type} (P : α → Prop) (f : α → β → α)
    (l : List β) (a : α) (h0 : P a) (hstep : ∀ x b, P x → P (f x b)) :
    P (l.foldl f a) := by
  induction l generalizing a with
  | nil => exact h0
  | cons b bs ih => exact ih _ (hstep a b h0)

theorem string_data_append (a b : String) : (a ++ b).data = a.data ++ b.data := by
  cases a; cases b; rfl

theorem string_append_ne_empty (a b : String) (hb : b ≠ "") : a ++ b ≠ "" := by
  intro h
  apply hb
  have hd := congrArg String.data h
  rw [string_data_append] at hd
  have hbd : b.data = [] := (List.append_eq_nil.mp hd).2
  cases b
  exact congrArg String.mk hbd

theorem dictGet_mem {d : Dict} {k v : String} (h : dictGet d k = some v) :
    (k, v) ∈ d := by
  induction d with
  | nil => simp [dictGet] at h
  | cons p rest ih =>
    obtain ⟨k', v'⟩ := p
    rw [dictGet] at h
    by_cases hk : k' = k
    · rw [if_pos hk] at h
      subst hk
      obtain rfl : v' = v := by simpa using h
      exact List.mem_cons_self _ _
    · rw [if_neg hk] at h
      exact List.mem_cons_of_mem _ (ih h)

theorem dictGet_eq_none_iff {d : Dict} {k : String} :
    dictGet d k = none ↔ k ∉ dictKeys d := by
  induction d with
  | nil => simp [dictGet, dictKeys]
  | cons p rest ih =>
    obtain ⟨k', v'⟩ := p
    by_cases hk : k' = k
    · subst hk
      simp [dictGet, dictKeys]
    · simp [dictGet, dictKeys, hk, ih, Ne.symm hk]

theorem mem_dictSet {d : Dict} {k v : String} {p : String × String}
    (h : p ∈ dictSet d k v) : p = (k, v) ∨ p ∈ d := by
  induction d with
  | nil => simpa [dictSet] using h
  | cons q rest ih =>
    obtain ⟨k', v'⟩ := q
    rw [dictSet] at h
    by_cases hk : k' = k
    · rw [if_pos hk] at h
      rcases List.mem_cons.mp h with h1 | h1
      · exact Or.inl h1
      · exact Or.inr (List.mem_cons_of_mem _ h1)
    · rw [if_neg hk] at h
      rcases List.mem_cons.mp h with h1 | h1
      · exact Or.inr (h1 ▸ List.mem_cons_self _ _)
      · rcases ih h1 with h2 | h2
        · exact Or.inl h2
        · exact Or.inr (List.mem_cons_of_mem _ h2)

theorem mem_dictDel {d : Dict} {k : String} {p : String × String}
    (h : p ∈ dictDel d k) : p ∈ d :=
  List.mem_of_mem_filter h

theorem mem_insertSorted {x y : String} {l : List String} :
    y ∈ insertSorted x l ↔ y = x ∨ y ∈ l := by
  induction l with
  | nil => simp [insertSorted]
  | cons z zs ih =>
    rw [insertSorted]
    split <;> simp only [List.mem_cons, ih]
    all_goals tauto

theorem mem_sortStrings {x : String} {l : List String} :
    x ∈ sortStrings l ↔ x ∈ l := by
  induction l with
  | nil => simp [sortStrings]
  | cons y ys ih =>
    simp only [sortStrings, List.foldr] at ih ⊢
    rw [mem_insertSorted, ih]
    simp

theorem publicKeysLoop_ne_unknownOption (http : Http) (addr api : String)
    (hdr : List (String × String)) :
    ∀ (keyids acc : List String),
      publicKeysLoop http addr api hdr keyids acc ≠
        Except.error GetErr.unknownOption := by
  intro keyids
  induction keyids with
  | nil => intro acc; simp [publicKeysLoop]
  | cons kid rest ih =>
    intro acc
    rw [publicKeysLoop]
    cases pyInt kid with
    | none => simp
    | some n =>
      dsimp only
      cases (ec2RawGet http addr api hdr (keyUri n)).1 with
      | none => simp
      | some key => exact ih _

theorem publicKeysLoop_maps (http : Http) (addr api : String)
    (hdr : List (String × String)) (nOf : String → Int) (kOf : String → String) :
    ∀ (keyids acc : List String),
      (∀ kid ∈ keyids, pyInt kid = some (nOf kid) ∧
        (ec2RawGet http addr api hdr (keyUri (nOf kid))).1 = some (kOf kid)) →
      publicKeysLoop http addr api hdr keyids acc =
        Except.ok (acc ++ keyids.map (fun kid => pyRstrip (kOf kid))) := by
  intro keyids
  induction keyids with
  | nil => intro acc _; simp [publicKeysLoop]
  | cons kid rest ih =>
    intro acc h
    obtain ⟨h1, h2⟩ := h kid (List.mem_cons_self _ _)
    rw [publicKeysLoop, h1]
    dsimp only
    rw [h2]
    dsimp only
    rw [ih _ (fun k hk => h k (List.mem_cons_of_mem _ hk))]
    simp

theorem publicKeysLoop_not_ok (http : Http) (addr api : String)
    (hdr : List (String × String)) :
    ∀ (keyids acc : List String), (∃ kid ∈ keyids, pyInt kid = none) →
      ∀ l, publicKeysLoop http addr api hdr keyids acc ≠ Except.ok l := by
  intro keyids
  induction keyids with
  | nil => rintro acc ⟨kid, hk, -⟩; simp at hk
  | cons kid0 rest ih =>
    rintro acc ⟨kid, hk, hkn⟩ l
    rw [publicKeysLoop]
    cases hp : pyInt kid0 with
    | none => simp
    | some n =>
      dsimp only
      cases (ec2RawGet http addr api hdr (keyUri n)).1 with
      | none => simp
      | some key =>
        dsimp only
        rcases List.mem_cons.mp hk with rfl | hmem
        · rw [hp] at hkn; cases hkn
        · exact ih _ ⟨kid, hmem, hkn⟩ l

theorem publicKeysLoop_valueError (http : Http) (addr api : String)
    (hdr : List (String × String)) :
    ∀ (keyids acc : List String),
      (∀ kid ∈ keyids, ∀ n, pyInt kid = some n →
        (ec2RawGet http addr api hdr (keyUri n)).1 ≠ none) →
      (∃ kid ∈ keyids, pyInt kid = none) →
      publicKeysLoop http addr api hdr keyids acc =
        Except.error GetErr.valueError := by
  intro keyids
  induction keyids with
  | nil => rintro acc - ⟨kid, hk, -⟩; simp at hk
  | cons kid0 rest ih =>
    rintro acc hall ⟨kid, hk, hkn⟩
    rw [publicKeysLoop]
    cases hp : pyInt kid0 with
    | none => rfl
    | some n =>
      dsimp only
      cases hf : (ec2RawGet http addr api hdr (keyUri n)).1 with
      | none =>
        exact absurd hf (hall kid0 (List.mem_cons_self _ _) n hp)
      | some key =>
        dsimp only
        rcases List.mem_cons.mp hk with rfl | hmem
        · rw [hp] at hkn; cases hkn
        · exact ih _ (fun k hk' => hall k (List.mem_cons_of_mem _ hk'))
            ⟨kid, hmem, hkn⟩

theorem dupsExtend_refl (d : List String) : dupsExtend d d :=
  ⟨[], by simp⟩

theorem dupsExtend_append (d t : List String) : dupsExtend d (d ++ t) :=
  ⟨t, rfl⟩

theorem dupsExtend_trans {a b c : List String}
    (h1 : dupsExtend a b) (h2 : dupsExtend b c) : dupsExtend a c := by
  obtain ⟨t1, rfl⟩ := h1
  obtain ⟨t2, rfl⟩ := h2
  exact ⟨t1 ++ t2, List.append_assoc _ _ _⟩

/-- The walk only ever appends to `self.duplicate_names`. -/
theorem addMetaOption_dups (http : Http) (addr api : String)
    (hdr : List (String × String)) :
    ∀ (fuel : Nat) (path : String) (st : DiscoverState),
      dupsExtend st.duplicate_names
        (addMetaOption http addr api hdr fuel path st).1.duplicate_names := by
  intro fuel
  induction fuel with
  | zero => intro path st; exact dupsExtend_refl _
  | succ fuel ih =>
    intro path st
    simp only [addMetaOption]
    split
    · exact dupsExtend_refl _
    · split
      · exact dupsExtend_refl _
      · refine foldl_invariant
          (fun x : DiscoverState × Option DiscErr =>
            dupsExtend st.duplicate_names x.1.duplicate_names) _ _ _
          (dupsExtend_refl _) ?_
        rintro ⟨st', e⟩ item hx
        cases e with
        | some err => exact hx
        | none =>
          dsimp only
          refine dupsExtend_trans hx ?_
          split_ifs with h1 h2 h3 h4 h5
          · exact dupsExtend_refl _
          · exact dupsExtend_refl _
          · exact ih (path ++ item) st'
          · exact dupsExtend_refl _
          · split
            · exact dupsExtend_refl _
            · exact dupsExtend_append _ _
          · exact dupsExtend_refl _

/-- `_set_meta_options` only ever appends to `self.duplicate_names`. -/
theorem setMetaOptions_dups (http : Http) (addr api : String)
    (hdr : List (String × String)) (fuel : Nat) (st : DiscoverState) :
    dupsExtend st.duplicate_names
      (setMetaOptions http addr api hdr fuel st).1.duplicate_names := by
  rw [setMetaOptions]
  cases h1 : addMetaOption http addr api hdr fuel "dynamic/" st with
  | mk st1 e =>
    have hd1 : dupsExtend st.duplicate_names st1.duplicate_names := by
      have := addMetaOption_dups http addr api hdr fuel "dynamic/" st
      rwa [h1] at this
    cases e with
    | some err => exact hd1
    | none =>
      exact dupsExtend_trans hd1
        (addMetaOption_dups http addr api hdr fuel "meta-data/" st1)

/-- The walk only inserts nonempty paths as values: each inserted value is
either `path + item` with `item` nonempty, or a value already present. -/
theorem addMetaOption_valuesOK (http : Http) (addr api : String)
    (hdr : List (String × String)) :
    ∀ (fuel : Nat) (path : String) (st : DiscoverState),
      valuesOK st.meta_options_api_map →
      valuesOK (addMetaOption http addr api hdr fuel path st).1.meta_options_api_map := by
  intro fuel
  induction fuel with
  | zero => intro path st h; exact h
  | succ fuel ih =>
    intro path st h
    simp only [addMetaOption]
    split
    · exact h
    · split
      · exact h
      · refine foldl_invariant
          (fun x : DiscoverState × Option DiscErr =>
            valuesOK x.1.meta_options_api_map) _ _ _ h ?_
        rintro ⟨st', e⟩ item hx
        cases e with
        | some err => exact hx
        | none =>
          dsimp only
          split_ifs with h1 h2 h3 h4 h5
          · exact hx
          · exact hx
          · exact ih (path ++ item) st' hx
          · intro p hp
            rcases mem_dictSet hp with rfl | hp2
            · exact string_append_ne_empty _ _ h1
            · exact hx p hp2
          · split
            · exact hx
            · next existing_path heq =>
              intro p hp
              rcases mem_dictSet hp with rfl | hp2
              · exact string_append_ne_empty _ _ h1
              · rcases mem_dictSet (mem_dictDel hp2) with rfl | hp3
                · exact hx (item, existing_path) (dictGet_mem heq)
                · exact hx p hp3
          · intro p hp
            rcases mem_dictSet hp with rfl | hp2
            · exact string_append_ne_empty _ _ h1
            · exact hx p hp2

/-- `_set_meta_options` preserves nonemptiness of the map's values. -/
theorem setMetaOptions_valuesOK (http : Http) (addr api : String)
    (hdr : List (String × String)) (fuel : Nat) (st : DiscoverState)
    (h : valuesOK st.meta_options_api_map) :
    valuesOK (setMetaOptions http addr api hdr fuel st).1.meta_options_api_map := by
  rw [setMetaOptions]
  cases h1 : addMetaOption http addr api hdr fuel "dynamic/" st with
  | mk st1 e =>
    have hv1 : valuesOK st1.meta_options_api_map := by
      have := addMetaOption_valuesOK http addr api hdr fuel "dynamic/" st h
      rwa [h1] at this
    cases e with
    | some err => exact hv1
    | none => exact addMetaOption_valuesOK http addr api hdr fuel "meta-data/" st1 hv1

/-- Claim C4, amended: the duplicate-name set grows monotonically during a
discovery pass, and `set_api_version` — which resets the option map —
does *not* reset it: the set after any `set_api_version` call still starts
with everything accumulated before, across rebuilds (it is emptied only at
construction, by `__init__`). -/
theorem C4_dups_monotone_and_persist (http : Http) :
    (∀ (addr api : String) (hdr : List (String × String)) (fuel : Nat)
        (path : String) (st : DiscoverState),
      ∃ t, (addMetaOption http addr api hdr fuel path st).1.duplicate_names
        = st.duplicate_names ++ t) ∧
    (∀ (fuel : Nat) (inst : EC2Inst) (v : Option String),
      ∃ t, (setApiVersion http fuel inst v).1.duplicate_names
        = inst.duplicate_names ++ t) := by
  constructor
  · intro addr api hdr fuel path st
    exact addMetaOption_dups http addr api hdr fuel path st
  · intro fuel inst v
    cases v with
    | none => exact ⟨[], by simp [setApiVersion]⟩
    | some s =>
      rw [setApiVersion]
      dsimp only
      by_cases hs : s = ""
      · rw [if_pos hs]
        exact ⟨[], by simp⟩
      · rw [if_neg hs]
        cases hroot : http (rootRequest inst.addr inst.request_header) with
        | none => exact ⟨[], by simp⟩
        | some body =>
          dsimp only
          by_cases hm : s ∈ pySplitChar body '\n'
          · rw [if_neg (not_not_intro hm)]
            cases hsm : setMetaOptions http inst.addr s inst.request_header
                fuel ⟨resetMetaOptionsApiMap, inst.duplicate_names⟩ with
            | mk st e =>
              have hext := setMetaOptions_dups http inst.addr s
                inst.request_header fuel
                ⟨resetMetaOptionsApiMap, inst.duplicate_names⟩
              rw [hsm] at hext
              obtain ⟨t, ht⟩ := hext
              cases e with
              | none => exact ⟨t, by simpa using ht⟩
              | some err => exact ⟨t, by simpa using ht⟩
          · rw [if_pos hm]
            exact ⟨[], by simp⟩

/-- Claim C5, amended: `set_api_version` returns the current version only
on the falsy no-op path; a valid, non-falsy call switches the active
version, rebuilds the map and returns Python's implicit `None` (the
success path of the source has no `return` statement). -/
theorem C5_returns_version_only_when_falsy (http : Http) (fuel : Nat)
    (inst : EC2Inst) :
    (setApiVersion http fuel inst none).2 = Except.ok (some inst.api) ∧
    (setApiVersion http fuel inst (some "")).2 = Except.ok (some inst.api) ∧
    (∀ v body, v ≠ "" →
      http (rootRequest inst.addr inst.request_header) = some body →
      v ∈ pySplitChar body '\n' →
      (setMetaOptions http inst.addr v inst.request_header fuel
        ⟨resetMetaOptionsApiMap, inst.duplicate_names⟩).2 = none →
      (setApiVersion http fuel inst (some v)).2 = Except.ok none ∧
      (setApiVersion http fuel inst (some v)).1.api = v) := by
  refine ⟨by simp [setApiVersion], by simp [setApiVersion], ?_⟩
  intro v body hv hroot hmem hwalk
  rw [setApiVersion]
  dsimp only
  rw [if_neg hv, hroot]
  dsimp only
  rw [if_neg (not_not_intro hmem)]
  cases hsm : setMetaOptions http inst.addr v inst.request_header fuel
      ⟨resetMetaOptionsApiMap, inst.duplicate_names⟩ with
  | mk st e =>
    rw [hsm] at hwalk
    dsimp only at hwalk
    subst hwalk
    exact ⟨rfl, rfl⟩

/-- Claim C6: `set_api_version` is atomic on error — with a non-falsy
version absent from the advertised list it fails with the
unsupported-version error and returns the instance completely unchanged
(the `raise` precedes every mutation), and with a falsy version it is a
pure no-op that consults neither the service nor the state. -/
theorem C6_set_api_version_atomic_on_error (http : Http) (fuel : Nat)
    (inst : EC2Inst) :
    setApiVersion http fuel inst none = (inst, Except.ok (some inst.api)) ∧
    setApiVersion http fuel inst (some "") =
      (inst, Except.ok (some inst.api)) ∧
    (∀ v body, v ≠ "" →
      http (rootRequest inst.addr inst.request_header) = some body →
      v ∉ pySplitChar body '\n' →
      setApiVersion http fuel inst (some v) =
        (inst, Except.error SAVErr.unsupportedVersion)) := by
  refine ⟨by simp [setApiVersion], by simp [setApiVersion], ?_⟩
  intro v body hv hroot hnot
  rw [setApiVersion]
  dsimp only
  rw [if_neg hv, hroot]
  dsimp only
  rw [if_pos hnot]

/-- Claim C6, witness: `set_api_version("bogus")` against a service
advertising `2008-02-01` and `2016-09-02` fails with the
unsupported-version error and leaves the instance untouched. -/
theorem C6_witness :
    setApiVersion httpRootOnly 5 instSeed (some "bogus") =
      (instSeed, Except.error SAVErr.unsupportedVersion) :=
  (C6_set_api_version_atomic_on_error httpRootOnly 5 instSeed).2.2 "bogus"
    "2008-02-01\n2016-09-02" (by decide) (by decide) (by decide)

/-- Claim C5, witness: a concrete valid switch returns `None` while the
active version does change. -/
theorem C5_witness :
    (setApiVersion httpRootOnly 5 instSeed (some "2016-09-02")).2 =
      Except.ok none ∧
    (setApiVersion httpRootOnly 5 instSeed (some "2016-09-02")).1.api =
      "2016-09-02" :=
  (C5_returns_version_only_when_falsy httpRootOnly 5 instSeed).2.2
    "2016-09-02" "2008-02-01\n2016-09-02" (by decide) (by decide) (by decide)
    (by decide)

/-- `get` can only raise the unknown-option error at its lookup step: once
the name resolves to a nonempty path, whatever else happens, the result is
never that error. -/
theorem ec2Get_ne_unknownOption (http2 : Http) (inst : EC2Inst)
    (name v : String) (hv : dictGet inst.meta_options_api_map name = some v)
    (hvne : v ≠ "") :
    ec2Get http2 inst name ≠ Except.error GetErr.unknownOption := by
  rw [ec2Get, hv]
  dsimp only
  rw [if_neg hvne]
  by_cases hpk : name = "public-keys"
  · rw [if_pos hpk]
    cases (ec2RawGet http2 inst.addr inst.api inst.request_header
        "meta-data/public-keys").1 with
    | none => simp
    | some data =>
      dsimp only
      by_cases hd : data = ""
      · rw [if_pos hd]; simp
      · rw [if_neg hd]
        cases hloop : publicKeysLoop http2 inst.addr inst.api
            inst.request_header (keyidsOf data) [] with
        | ok l => simp [Except.map]
        | error e =>
          have hne := publicKeysLoop_ne_unknownOption http2 inst.addr inst.api
            inst.request_header (keyidsOf data) []
          rw [hloop] at hne
          intro hcontra
          have he : e = GetErr.unknownOption := by
            simpa [Except.map] using hcontra
          exact hne (by rw [he])
  · rw [if_neg hpk]
    cases (ec2RawGet http2 inst.addr inst.api inst.request_header v).1 with
    | none => simp
    | some s => simp

/-- Claim C9: on any successfully constructed instance, `get(name)` raises
the unknown-option error exactly when `name` is absent from the option map;
in particular no name listed by `get_meta_data_options()` can raise it. -/
theorem C9_unknown_option_exactly_when_absent (hasIpv6 : Bool)
    (probe : String → Nat → ProbeOutcome) (http : Http) (fuel : Nat)
    (api : String) (inst : EC2Inst)
    (hinit : initEC2 hasIpv6 probe http fuel api = Except.ok inst)
    (http2 : Http) :
    (∀ name, ec2Get http2 inst name = Except.error GetErr.unknownOption ↔
      name ∉ dictKeys inst.meta_options_api_map) ∧
    (∀ name ∈ getMetaDataOptions inst,
      ec2Get http2 inst name ≠ Except.error GetErr.unknownOption) := by
  have hval : valuesOK inst.meta_options_api_map := by
    rw [initEC2] at hinit
    cases haddr : (setIpAddress hasIpv6 probe).1 with
    | none => rw [haddr] at hinit; simp at hinit
    | some addr =>
      rw [haddr] at hinit
      dsimp only at hinit
      cases hhdr : (setApiHeader http addr).1 with
      | error e => rw [hhdr] at hinit; simp at hinit
      | ok hdr =>
        rw [hhdr] at hinit
        dsimp only at hinit
        cases hsm : setMetaOptions http addr api hdr fuel
            ⟨resetMetaOptionsApiMap, []⟩ with
        | mk st e =>
          rw [hsm] at hinit
          cases e with
          | some err => simp at hinit
          | none =>
            dsimp only at hinit
            have hi : (⟨api, addr, hdr, st.meta_options_api_map,
                st.duplicate_names⟩ : EC2Inst) = inst := by
              injection hinit
            have h0 : valuesOK resetMetaOptionsApiMap := by
              intro p hp
              simp only [resetMetaOptionsApiMap, List.mem_cons,
                List.mem_singleton] at hp
              rcases hp with rfl | rfl | h
              · decide
              · decide
              · simp at h
            have h1 := setMetaOptions_valuesOK http addr api hdr fuel
              ⟨resetMetaOptionsApiMap, []⟩ h0
            rw [hsm] at h1
            rw [← hi]
            exact h1
  have haux : ∀ name, name ∈ dictKeys inst.meta_options_api_map →
      ec2Get http2 inst name ≠ Except.error GetErr.unknownOption := by
    intro name hmem
    obtain ⟨v, hv⟩ : ∃ v, dictGet inst.meta_options_api_map name = some v := by
      cases h : dictGet inst.meta_options_api_map name with
      | none => exact absurd hmem (dictGet_eq_none_iff.mp h)
      | some v => exact ⟨v, rfl⟩
    exact ec2Get_ne_unknownOption http2 inst name v hv
      (hval (name, v) (dictGet_mem hv))
  constructor
  · intro name
    constructor
    · intro hget
      by_contra hmem
      exact haux name hmem hget
    · intro habs
      rw [ec2Get, dictGet_eq_none_iff.mpr habs]
  · intro name hmem
    exact haux name (mem_sortStrings.mp hmem)

/-- Claim C9, witness: on a concretely constructed instance, a bogus name
raises the unknown-option error and the listed name `user-data` does not. -/
theorem C9_witness :
    ec2Get httpW instSeed "bogus-option" =
      Except.error GetErr.unknownOption ∧
    ec2Get httpW instSeed "user-data" ≠
      Except.error GetErr.unknownOption := by
  have h := C9_unknown_option_exactly_when_absent true okProbe httpW 10
    "2008-02-01" instSeed (by decide) httpW
  exact ⟨(h.1 "bogus-option").mpr (by decide), h.2 "user-data" (by decide)⟩

/-- Claim C8: `get('public-keys')` follows the multi-fetch sub-protocol.
If the listing fetch yields no data (a `None` or empty result), the result
is the empty key sequence.  Otherwise, writing `keyidsOf data` for the part
of each listing line before `'='`, if every id parses as an integer and
every per-id `meta-data/public-keys/<id>/openssh-key` fetch succeeds, the
result is exactly the ordered sequence of fetched keys with trailing
whitespace stripped. -/
theorem C8_public_keys_protocol (http : Http) (inst : EC2Inst)
    (nOf : String → Int) (kOf : String → String)
    (hmap : dictGet inst.meta_options_api_map "public-keys" =
      some "meta-data/public-keys") :
    ((ec2RawGet http inst.addr inst.api inst.request_header
        "meta-data/public-keys").1 = none →
      ec2Get http inst "public-keys" = Except.ok (PyValue.plist [])) ∧
    ((ec2RawGet http inst.addr inst.api inst.request_header
        "meta-data/public-keys").1 = some "" →
      ec2Get http inst "public-keys" = Except.ok (PyValue.plist [])) ∧
    (∀ data, (ec2RawGet http inst.addr inst.api inst.request_header
        "meta-data/public-keys").1 = some data → data ≠ "" →
      (∀ kid ∈ keyidsOf data, pyInt kid = some (nOf kid) ∧
        (ec2RawGet http inst.addr inst.api inst.request_header
          (keyUri (nOf kid))).1 = some (kOf kid)) →
      ec2Get http inst "public-keys" = Except.ok (PyValue.plist
        ((keyidsOf data).map (fun kid => pyRstrip (kOf kid))))) := by
  refine ⟨?_, ?_, ?_⟩
  · intro hnone
    rw [ec2Get, hmap]
    dsimp only
    rw [if_neg (by decide), if_pos rfl, hnone]
  · intro hempty
    rw [ec2Get, hmap]
    dsimp only
    rw [if_neg (by decide), if_pos rfl, hempty]
    dsimp only
    rw [if_pos rfl]
  · intro data hdata hne hids
    rw [ec2Get, hmap]
    dsimp only
    rw [if_neg (by decide), if_pos rfl, hdata]
    dsimp only
    rw [if_neg hne,
      publicKeysLoop_maps http inst.addr inst.api inst.request_header
        nOf kOf (keyidsOf data) [] hids]
    simp [Except.map]

/-- Claim C8, witness: the spec's concrete scenario — listing
`"0=my-key\n"`, key material `"ssh-rsa AAAAB3 example\n"` — yields the
singleton key list with the trailing newline stripped. -/
theorem C8_witness :
    ec2Get httpKeys instSeed "public-keys" =
      Except.ok (PyValue.plist ["ssh-rsa AAAAB3 example"]) := by
  have h := (C8_public_keys_protocol httpKeys instSeed (fun _ => (0 : Int))
    (fun _ => "ssh-rsa AAAAB3 example\n") (by decide)).2.2
    "0=my-key\n" (by decide) (by decide) (by decide)
  exact h.trans (by decide)

/-- Claim C10: `get('public-keys')` is total only when every listing line's
id (the part before `'='`) parses as an integer: if some id does not parse,
the call fails with an exception instead of returning a key sequence, and
if additionally every id that does parse has a fetchable key, the exception
is exactly the `ValueError` from `int(keyid)`. -/
theorem C10_nonnumeric_id_fails (http : Http) (inst : EC2Inst) (data : String)
    (hmap : dictGet inst.meta_options_api_map "public-keys" =
      some "meta-data/public-keys")
    (hdata : (ec2RawGet http inst.addr inst.api inst.request_header
      "meta-data/public-keys").1 = some data)
    (hne : data ≠ "")
    (hbad : ∃ kid ∈ keyidsOf data, pyInt kid = none) :
    (∃ e, ec2Get http inst "public-keys" = Except.error e) ∧
    ((∀ kid ∈ keyidsOf data, ∀ n, pyInt kid = some n →
        (ec2RawGet http inst.addr inst.api inst.request_header
          (keyUri n)).1 ≠ none) →
      ec2Get http inst "public-keys" = Except.error GetErr.valueError) := by
  constructor
  · rw [ec2Get, hmap]
    dsimp only
    rw [if_neg (by decide), if_pos rfl, hdata]
    dsimp only
    rw [if_neg hne]
    cases hloop : publicKeysLoop http inst.addr inst.api inst.request_header
        (keyidsOf data) [] with
    | ok l =>
      exact absurd hloop
        (publicKeysLoop_not_ok http inst.addr inst.api inst.request_header
          (keyidsOf data) [] hbad l)
    | error e => exact ⟨e, by simp [Except.map]⟩
  · intro hfetch
    rw [ec2Get, hmap]
    dsimp only
    rw [if_neg (by decide), if_pos rfl, hdata]
    dsimp only
    rw [if_neg hne,
      publicKeysLoop_valueError http inst.addr inst.api inst.request_header
        (keyidsOf data) [] hfetch hbad]
    simp [Except.map]

/-- Claim C10, witness: a listing line `"my-key"` whose id part does not
parse as an integer makes `get('public-keys')` fail with the `ValueError`
rather than return keys. -/
theorem C10_witness :
    ec2Get httpBadKeys instSeed "public-keys" =
      Except.error GetErr.valueError := by
  refine (C10_nonnumeric_id_fails httpBadKeys instSeed "my-key\n"
    (by decide) (by decide) (by decide)
    ⟨"my-key", by decide, by decide⟩).2 ?_
  intro kid hk n hn
  have he : keyidsOf "my-key\n" = ["my-key"] := by decide
  rw [he, List.mem_singleton] at hk
  subst hk
  rw [(by decide : pyInt "my-key" = (none : Option Int))] at hn
  cases hn

theorem dictGet_mem_keys {d : Dict} {k v : String}
    (h : dictGet d k = some v) : k ∈ dictKeys d :=
  List.mem_map_of_mem Prod.fst (dictGet_mem h)

theorem dictGet_dictSet_self (d : Dict) (k v : String) :
    dictGet (dictSet d k v) k = some v := by
  induction d with
  | nil => simp [dictSet, dictGet]
  | cons p rest ih =>
    obtain ⟨k', v'⟩ := p
    rw [dictSet]
    by_cases hk : k' = k
    · rw [if_pos hk, dictGet, if_pos rfl]
    · rw [if_neg hk, dictGet, if_neg hk]
      exact ih

theorem dictGet_dictSet_ne (d : Dict) (k v k' : String) (h : k' ≠ k) :
    dictGet (dictSet d k v) k' = dictGet d k' := by
  have hkk : ¬ (k = k') := fun hh => h hh.symm
  induction d with
  | nil => simp [dictSet, dictGet, hkk]
  | cons p rest ih =>
    obtain ⟨k'', v''⟩ := p
    rw [dictSet]
    by_cases hk : k'' = k
    · subst hk
      rw [if_pos rfl]
      simp only [dictGet, if_neg hkk]
    · rw [if_neg hk]
      simp only [dictGet]
      by_cases hk' : k'' = k'
      · rw [if_pos hk', if_pos hk']
      · rw [if_neg hk', if_neg hk', ih]

theorem dictGet_dictDel_ne (d : Dict) (k k' : String) (h : k' ≠ k) :
    dictGet (dictDel d k) k' = dictGet d k' := by
  induction d with
  | nil => rfl
  | cons p rest ih =>
    obtain ⟨k'', v''⟩ := p
    by_cases hk : k'' = k
    · have hfil : dictDel ((k'', v'') :: rest) k = dictDel rest k := by
        simp [dictDel, List.filter_cons, hk]
      rw [hfil, ih, dictGet, if_neg (fun hh => h ((hk.symm.trans hh).symm))]
    · have hfil : dictDel ((k'', v'') :: rest) k =
          (k'', v'') :: dictDel rest k := by
        simp [dictDel, List.filter_cons, hk]
      rw [hfil, dictGet, dictGet]
      by_cases hk' : k'' = k'
      · rw [if_pos hk', if_pos hk']
      · rw [if_neg hk', if_neg hk', ih]

theorem append_hyphen_ne (s item : String) : s ++ "-" ++ item ≠ item := by
  intro h
  have hd : (s ++ "-" ++ item).data = item.data := congrArg String.data h
  rw [string_data_append, string_data_append] at hd
  have hlen := congrArg List.length hd
  rw [List.length_append, List.length_append] at hlen
  have h1 : ("-" : String).data.length = 1 := rfl
  omega

/-- With a nonempty endpoint, `_expand_name` yields
`<segment>-<endpoint>`, which is never the bare endpoint itself. -/
theorem expandName_ne (path item : String) (h : item ≠ "") :
    expandName path item ≠ item := by
  simp only [expandName]
  rw [if_neg h]
  exact append_hyphen_ne _ _

/-- Claim C7, amended: collision resolution holds stepwise, not for every
tree.  When a call of the walk processes a leaf entry `item` that is in
its entry-time key snapshot and that the live map binds to `ep`, it
records `item` as duplicate, rebinds `ep` under `expandName ep`, deletes
the bare binding, and binds `expandName path item` — never equal to the
bare name — to the new full path; if the two expanded names differ (and
the renamed one also differs from the bare name), the map holds two
distinct expanded entries, each mapping to its own full path, but if they
coincide (equal preceding segment names, as with `dynamic/a/x` and
`meta-data/a/x`) the second binding overwrites the first and one path is
lost.  A leaf occurrence processed while its name is already recorded as
duplicate (and absent from the snapshot) is likewise entered under the
expanded name, never the bare one.  Concretely: sibling directories with
distinct names (`httpA`, and `httpT` for a third occurrence) do yield
distinct expanded names with the bare name gone, while equal directory
names under two roots (`httpD`) collapse both onto `a-x`, losing
`dynamic/a/x` — and a leaf whose earlier same-named occurrence is not in
the snapshot is overwritten bare (the counterexample). -/
theorem C7_collision_resolution_stepwise (http : Http) (addr api : String)
    (hdr : List (String × String)) :
    (∀ (fuel : Nat) (path item ep : String) (st : DiscoverState),
      (ec2RawGet http addr api hdr path).1 = some item →
      pySplitChar item '\n' = [item] →
      item ≠ "" → item ≠ "public-keys/" → lastIsSlash item = false →
      dictGet st.meta_options_api_map item = some ep →
      addMetaOption http addr api hdr (fuel + 1) path st =
        (⟨dictSet (dictDel (dictSet st.meta_options_api_map
              (expandName ep) ep) item)
            (expandName path item) (path ++ item),
          st.duplicate_names ++ [item]⟩, none) ∧
      expandName path item ≠ item ∧
      dictGet (addMetaOption http addr api hdr
          (fuel + 1) path st).1.meta_options_api_map
        (expandName path item) = some (path ++ item) ∧
      (expandName ep ≠ expandName path item → expandName ep ≠ item →
        dictGet (addMetaOption http addr api hdr
            (fuel + 1) path st).1.meta_options_api_map
          (expandName ep) = some ep) ∧
      (expandName ep = expandName path item →
        dictGet (addMetaOption http addr api hdr
            (fuel + 1) path st).1.meta_options_api_map
          (expandName ep) = some (path ++ item)) ∧
      item ∈ (addMetaOption http addr api hdr
          (fuel + 1) path st).1.duplicate_names) ∧
    (∀ (fuel : Nat) (path item : String) (st : DiscoverState),
      (ec2RawGet http addr api hdr path).1 = some item →
      pySplitChar item '\n' = [item] →
      item ≠ "" → item ≠ "public-keys/" → lastIsSlash item = false →
      item ∈ st.duplicate_names →
      item ∉ dictKeys st.meta_options_api_map →
      addMetaOption http addr api hdr (fuel + 1) path st =
        (⟨dictSet st.meta_options_api_map
            (expandName path item) (path ++ item),
          st.duplicate_names⟩, none) ∧
      expandName path item ≠ item) ∧
    (initEC2 true okProbe httpA 10 "2008-02-01" = Except.ok instA ∧
     dictGet instA.meta_options_api_map "a-x" = some "meta-data/a/x" ∧
     dictGet instA.meta_options_api_map "b-x" = some "meta-data/b/x" ∧
     "x" ∉ dictKeys instA.meta_options_api_map ∧
     initEC2 true okProbe httpT 10 "2008-02-01" = Except.ok instT ∧
     dictGet instT.meta_options_api_map "c-x" = some "meta-data/c/x" ∧
     "x" ∉ dictKeys instT.meta_options_api_map) ∧
    (initEC2 true okProbe httpD 10 "2008-02-01" = Except.ok instD ∧
     dictGet instD.meta_options_api_map "a-x" = some "meta-data/a/x" ∧
     ¬ (∃ p ∈ instD.meta_options_api_map, p.2 = "dynamic/a/x")) := by
  refine ⟨?_, ?_, ?_, ?_⟩
  · intro fuel path item ep st hfetch hsplit hne hpk hslash hget
    have hmem : item ∈ dictKeys st.meta_options_api_map := dictGet_mem_keys hget
    have hstep : addMetaOption http addr api hdr (fuel + 1) path st =
        (⟨dictSet (dictDel (dictSet st.meta_options_api_map
              (expandName ep) ep) item)
            (expandName path item) (path ++ item),
          st.duplicate_names ++ [item]⟩, none) := by
      simp [addMetaOption, hfetch, hsplit, List.foldl, hne, hpk, hslash,
        hmem, hget]
    refine ⟨hstep, expandName_ne path item hne, ?_, ?_, ?_, ?_⟩
    · rw [hstep]
      exact dictGet_dictSet_self _ _ _
    · intro hne1 hne2
      rw [hstep]
      dsimp only
      rw [dictGet_dictSet_ne _ _ _ _ hne1, dictGet_dictDel_ne _ _ _ hne2]
      exact dictGet_dictSet_self _ _ _
    · intro heq
      rw [hstep]
      dsimp only
      rw [heq]
      exact dictGet_dictSet_self _ _ _
    · rw [hstep]
      simp
  · intro fuel path item st hfetch hsplit hne hpk hslash hdup habs
    have hstep : addMetaOption http addr api hdr (fuel + 1) path st =
        (⟨dictSet st.meta_options_api_map
            (expandName path item) (path ++ item),
          st.duplicate_names⟩, none) := by
      simp [addMetaOption, hfetch, hsplit, List.foldl, hne, hpk, hslash,
        hdup, habs]
    exact ⟨hstep, expandName_ne path item hne⟩
  · refine ⟨by decide, by decide, by decide, by decide, by decide, by decide,
      by decide⟩
  · refine ⟨by decide, by decide, by decide⟩

/-- Claim C7, witness: one concrete collision step — leaf `x` at
`meta-data/a/` colliding with an existing binding `x -> dynamic/b/x`
visible in the snapshot — yields the two distinct expanded entries
`b-x -> dynamic/b/x` and `a-x -> meta-data/a/x`, with the bare `x`
removed and recorded as duplicate. -/
theorem C7_witness :
    addMetaOption httpStep "169.254.169.254" "2008-02-01" hdrA 1
        "meta-data/a/" ⟨[("x", "dynamic/b/x")], []⟩ =
      (⟨[("b-x", "dynamic/b/x"), ("a-x", "meta-data/a/x")], ["x"]⟩, none) := by
  have h := ((C7_collision_resolution_stepwise httpStep "169.254.169.254"
    "2008-02-01" hdrA).1 0 "meta-data/a/" "x" "dynamic/b/x"
    ⟨[("x", "dynamic/b/x")], []⟩ (by decide) (by decide) (by decide)
    (by decide) (by decide) (by decide)).1
  exact h.trans (by decide)
